import Mathlib

/-!
Shallow embedding of the `stepfunction` workflow engine
(`src/stepfunction/core/step_function/step_function.py` and its helper
modules) together with theorems checking the specification claims.

Modelling conventions:
* Python runtime values flowing through steps are modelled by `Value`.
* a step action is a Lean function `Value → StepOutcome`; a raised Python
  exception is modelled by the list of its `args`.
* the engine's mutable attributes become fields of `Engine`; the local
  variable `result` of `execute` (assigned only on the non-parallel success
  path, and read by the branch check) is threaded separately as an
  `Option Value` so that the unbound / stale-value behaviour of the source
  is preserved.
* the `while` loop of `execute` is run on explicit fuel; exhausting fuel
  yields the distinguished outcome `ExecResult.fuelOut` (the Python loop
  would simply keep running).
* thread-pool completion order of a parallel step is an explicit list of
  task names handed to the coordinator; `execute` consumes one such order
  per parallel step from an `orders` argument (an empty list defaults to
  submission order).
* string renderings of exceptions (Python f-strings) are reproduced up to
  quoting details that no claim depends on.
-/

namespace StepFn

/-- Runtime values produced and consumed by steps (`Any` in the source). -/
inductive Value where
  | vnone
  | int (n : Int)
  | str (s : String)
  | dict (d : List (String × Value))

mutual

/-- Structural equality test on values, modelling Python `==` as used by the
`result in step[ "branch" ]` membership check. -/
def Value.beq : Value → Value → Bool
  | Value.vnone, Value.vnone => true
  | Value.int a, Value.int b => a == b
  | Value.str a, Value.str b => a == b
  | Value.dict a, Value.dict b => Value.beqDict a b
  | _, _ => false

/-- Pointwise equality of dict entries, part of `Value.beq`. -/
def Value.beqDict : List (String × Value) → List (String × Value) → Bool
  | [], [] => true
  | (k, v) :: xs, (l, w) :: ys => k == l && Value.beq v w && Value.beqDict xs ys
  | _, _ => false

end

mutual

/-- Rendering of a value inside an f-string (approximate Python `str`). -/
def Value.render : Value → String
  | Value.vnone => "None"
  | Value.int n => toString n
  | Value.str s => s
  | Value.dict d => Value.renderDict d

/-- Rendering of dict entries, part of `Value.render`. -/
def Value.renderDict : List (String × Value) → String
  | [] => ""
  | (k, v) :: rest => k ++ ": " ++ Value.render v ++ "; " ++ Value.renderDict rest

end

/-- `StepFunctionStatus` from `constants/enums.py`. -/
inductive Status where
  | initialized
  | running
  | completed
  | failed
deriving DecidableEq

/-- Outcome of calling one step action: a returned value, or a raised
exception carrying its `args` tuple. -/
inductive StepOutcome where
  | ok (v : Value)
  | exn (args : List Value)

/-- Exceptions that can cross the engine's `try`/`except` boundaries.
`user` is an exception raised by a step action; `stepExec` and
`parallelExec` model `StepExecutionError` and `ParallelStepExecutionError`
from `exceptions/step_errors.py` (carrying, structurally, what the source
interpolates into the message); the remaining constructors model the
builtin exceptions the engine code itself can raise. -/
inductive PyExc where
  | user (args : List Value)
  | stepExec (orig : PyExc)
  | parallelExec (errors : List (String × PyExc))
  | indexErr
  | nameErr (msg : String)
  | typeErr
  | attrErr
  | keyErr (key : String)

mutual

/-- Rendering of an exception inside an f-string (approximate `str(exc)`). -/
def PyExc.render : PyExc → String
  | PyExc.user [] => ""
  | PyExc.user [v] => Value.render v
  | PyExc.user vs => "(" ++ PyExc.renderVals vs ++ ")"
  | PyExc.stepExec o => "Step generated an exception: " ++ PyExc.render o
  | PyExc.parallelExec errs => "Parallel step generated an exception: " ++ PyExc.renderErrors errs
  | PyExc.indexErr => "tuple index out of range"
  | PyExc.nameErr m => m
  | PyExc.typeErr => "dict object is not callable"
  | PyExc.attrErr => "function object has no attribute items"
  | PyExc.keyErr k => k

/-- Rendering of an args tuple, part of `PyExc.render`. -/
def PyExc.renderVals : List Value → String
  | [] => ""
  | [v] => Value.render v
  | v :: rest => Value.render v ++ ", " ++ PyExc.renderVals rest

/-- Rendering of a `(task_name, exception)` list, part of `PyExc.render`. -/
def PyExc.renderErrors : List (String × PyExc) → String
  | [] => ""
  | (n, e) :: rest => "(" ++ n ++ ", " ++ PyExc.render e ++ ") " ++ PyExc.renderErrors rest

end

/-- Message built by `StepExecutionError.__init__`. -/
def stepExecMsg (o : PyExc) : String :=
  "Step generated an exception: " ++ PyExc.render o

/-- Message built by `ParallelStepExecutionError.__init__`. -/
def parallelExecMsg (errs : List (String × PyExc)) : String :=
  "Parallel step generated an exception: " ++ PyExc.renderErrors errs

/-- The `args` tuple of each modelled exception, as read by `exc.args[0]`.
Both custom error classes call `super().__init__(self.message)`, so their
`args` is the singleton of the formatted message. -/
def PyExc.args : PyExc → List Value
  | PyExc.user a => a
  | PyExc.stepExec o => [Value.str (stepExecMsg o)]
  | PyExc.parallelExec errs => [Value.str (parallelExecMsg errs)]
  | PyExc.indexErr => [Value.str "tuple index out of range"]
  | PyExc.nameErr m => [Value.str m]
  | PyExc.typeErr => [Value.str "dict object is not callable"]
  | PyExc.attrErr => [Value.str "function object has no attribute items"]
  | PyExc.keyErr k => [Value.str k]

/-- Observable per-iteration events of one `execute` run (specification
instrumentation; carries no engine state): `ok` - the loop body finished
with the step's result recorded as a success; `failed` - the `except`
clause recorded a failure payload for the step; `crashed` - the `except`
clause itself raised `IndexError` on an empty `args` tuple; `missing` -
the registry lookup of the cursor raised `KeyError`. -/
inductive Event where
  | ok (name : String)
  | failed (name : String)
  | crashed (name : String)
  | missing (name : String)
deriving DecidableEq

/-- How one call to `execute` ended: normal return, a propagated
exception, or fuel exhaustion (model artifact for a still-running loop). -/
inductive ExecResult where
  | done
  | raised (e : PyExc)
  | fuelOut

mutual

/-- Shape of the `func` entry of a step definition: a single callable, a
dict of callables (parallel tasks), or the `sub_func` closure created by
`add_sub_step_function` (modelled by the nested engine it captures). -/
inductive SFunc where
  | single (f : Value → StepOutcome)
  | tasks (d : List (String × (Value → StepOutcome)))
  | sub (nested : Engine)

/-- One entry of the `__steps` dict, mirroring the keys stored by
`add_step` / `add_sub_step_function` (the `StepParams` TypedDict). -/
inductive StepDef where
  | mk (func : SFunc) (next_step : Option String) (on_failure : Option String)
      (branch : List (Value × String)) (parallel : Bool) (stop_on_failure : Bool)
      (is_sub_step_function : Bool)

/-- The `StepFunction` object state: its name, the ordered `__steps`
registry, `__current_step`, `__last_result`, `__context` and `__status`. -/
inductive Engine where
  | mk (name : String) (steps : List (String × StepDef)) (current_step : Option String)
      (last_result : Value) (context : List (String × Value)) (status : Status)

end

/-- The `func` field of a step definition. -/
def StepDef.func : StepDef → SFunc
  | StepDef.mk f _ _ _ _ _ _ => f

/-- The `next_step` field of a step definition. -/
def StepDef.next_step : StepDef → Option String
  | StepDef.mk _ ns _ _ _ _ _ => ns

/-- The `on_failure` field of a step definition. -/
def StepDef.on_failure : StepDef → Option String
  | StepDef.mk _ _ onf _ _ _ _ => onf

/-- The `branch` field of a step definition (`None` and `{}` are both
modelled by the empty list, which is exactly the falsy case of the
`step[ "branch" ] and ...` guard). -/
def StepDef.branch : StepDef → List (Value × String)
  | StepDef.mk _ _ _ br _ _ _ => br

/-- The `parallel` field of a step definition. -/
def StepDef.parallel : StepDef → Bool
  | StepDef.mk _ _ _ _ par _ _ => par

/-- The `stop_on_failure` field of a step definition. -/
def StepDef.stop_on_failure : StepDef → Bool
  | StepDef.mk _ _ _ _ _ stp _ => stp

/-- The `is_sub_step_function` marker of a step definition. -/
def StepDef.is_sub_step_function : StepDef → Bool
  | StepDef.mk _ _ _ _ _ _ sub => sub

/-- Replacement of the `func` field (used to model in-place mutation of a
captured nested engine object). -/
def StepDef.setFunc : StepDef → SFunc → StepDef
  | StepDef.mk _ ns onf br par stp sub, f => StepDef.mk f ns onf br par stp sub

/-- The `name` attribute. -/
def Engine.name : Engine → String
  | Engine.mk n _ _ _ _ _ => n

/-- The `__steps` registry. -/
def Engine.steps : Engine → List (String × StepDef)
  | Engine.mk _ s _ _ _ _ => s

/-- The `__current_step` cursor. -/
def Engine.current_step : Engine → Option String
  | Engine.mk _ _ c _ _ _ => c

/-- The `__last_result` attribute. -/
def Engine.last_result : Engine → Value
  | Engine.mk _ _ _ lr _ _ => lr

/-- The `__context` dict. -/
def Engine.context : Engine → List (String × Value)
  | Engine.mk _ _ _ _ ctx _ => ctx

/-- The `__status` attribute. -/
def Engine.status : Engine → Status
  | Engine.mk _ _ _ _ _ st => st

/-- Assignment to `__steps`. -/
def Engine.setSteps : Engine → List (String × StepDef) → Engine
  | Engine.mk n _ c lr ctx st, s => Engine.mk n s c lr ctx st

/-- Assignment to `__current_step`. -/
def Engine.setCurrent : Engine → Option String → Engine
  | Engine.mk n s _ lr ctx st, c => Engine.mk n s c lr ctx st

/-- Assignment to `__last_result`. -/
def Engine.setLastResult : Engine → Value → Engine
  | Engine.mk n s c _ ctx st, lr => Engine.mk n s c lr ctx st

/-- Assignment to `__context`. -/
def Engine.setContext : Engine → List (String × Value) → Engine
  | Engine.mk n s c lr _ st, ctx => Engine.mk n s c lr ctx st

/-- Assignment to `__status`. -/
def Engine.setStatus : Engine → Status → Engine
  | Engine.mk n s c lr ctx _, st => Engine.mk n s c lr ctx st

/-- Python dict assignment `d[k] = v`: overwrite in place if the key is
present, else append (insertion order is preserved, as for Python dicts). -/
def dictSet (d : List (String × Value)) (k : String) (v : Value) : List (String × Value) :=
  if d.any (fun p => p.1 == k) then
    d.map (fun p => if p.1 == k then (p.1, v) else p)
  else d ++ [(k, v)]

/-- Python `d.update(other)`: assign every entry of `other` in order. -/
def dictUpdate (d other : List (String × Value)) : List (String × Value) :=
  other.foldl (fun acc kv => dictSet acc kv.1 kv.2) d

/-- Lookup in the `__steps` registry (`name in self.__steps` /
`self.__steps[name]`). -/
def lookupStep (steps : List (String × StepDef)) (n : String) : Option StepDef :=
  match steps with
  | [] => Option.none
  | (k, sd) :: rest => if k == n then some sd else lookupStep rest n

/-- Lookup of a submitted task by name in a parallel `func` dict. -/
def lookupTask (d : List (String × (Value → StepOutcome))) (n : String) :
    Option (Value → StepOutcome) :=
  match d with
  | [] => Option.none
  | (k, f) :: rest => if k == n then some f else lookupTask rest n

/-- The `StepFunction.__init__` constructor: empty registry, no cursor,
`last_result = None`, empty context, status `INITIALIZED`. -/
def StepFunction.init (name : String) : Engine :=
  Engine.mk name [] Option.none Value.vnone [] Status.initialized

/-- `add_step`: raises `ValueError` (the error kind the specification
calls `DuplicateStepError`) when the name is already registered, else
appends the definition; quoting of the name in the message is omitted. -/
def Engine.add_step (eng : Engine) (name : String) (func : SFunc)
    (next_step on_failure : Option String) (branch : List (Value × String))
    (parallel stop_on_failure : Bool) : Except String Engine :=
  if eng.steps.any (fun p => p.1 == name) then
    Except.error ("Step " ++ name ++ " already exists in steps")
  else
    Except.ok (eng.setSteps (eng.steps ++
      [(name, StepDef.mk func next_step on_failure branch parallel stop_on_failure false)]))

/-- `add_sub_step_function`: same duplicate check as `add_step`, then
registers the `sub_func` closure with `branch=None`, `parallel=False`,
`stop_on_failure=False` and `is_sub_step_function=True`. -/
def Engine.add_sub_step_function (eng : Engine) (name : String) (nested : Engine)
    (next_step on_failure : Option String) : Except String Engine :=
  if eng.steps.any (fun p => p.1 == name) then
    Except.error ("Step " ++ name ++ " already exists in steps")
  else
    Except.ok (eng.setSteps (eng.steps ++
      [(name, StepDef.mk (SFunc.sub nested) next_step on_failure [] false false true)]))

/-- `set_start_step`: raises `ValueError` (the specification's
`UnknownStepError`) for an unregistered name, else sets the cursor. -/
def Engine.set_start_step (eng : Engine) (name : String) : Except String Engine :=
  if eng.steps.any (fun p => p.1 == name) then
    Except.ok (eng.setCurrent (some name))
  else
    Except.error ("Step " ++ name ++ " not found in steps")

/-- Outcome of `_execute_parallel`: a returned result dict, or a raised
exception together with the flag telling whether the coordinator set
`self.__status = FAILED` before raising (it does so only on the
`stop_on_failure` raise, not on an escaping `IndexError`). -/
inductive ParOut where
  | ok (res : List (String × Value))
  | raised (setFailed : Bool) (e : PyExc)

/-- The `for future in as_completed(futures)` loop of `_execute_parallel`,
walking the completed tasks in completion order `order`. The
`should_stop_execution` break is checked, as in the source, after the next
completed future is obtained and before it is processed. `res` and `errs`
are the `results` dict and `errors` list accumulated so far. A name absent
from the submitted dict never occurs for a genuine completion order and is
skipped. An empty `args` on a failed task makes `exc.args[0]` raise
`IndexError` out of the loop. -/
def parLoop (d : List (String × (Value → StepOutcome))) (input : Value) (stop : Bool) :
    List String → List (String × Value) → List (String × PyExc) → Bool →
    Except PyExc (List (String × Value) × List (String × PyExc))
  | [], res, errs, _ => Except.ok (res, errs)
  | n :: rest, res, errs, shouldStop =>
    if shouldStop then Except.ok (res, errs)
    else
      match lookupTask d n with
      | Option.none => parLoop d input stop rest res errs shouldStop
      | some f =>
        match f input with
        | StepOutcome.ok v => parLoop d input stop rest (dictSet res n v) errs shouldStop
        | StepOutcome.exn args =>
          match args with
          | [] => Except.error PyExc.indexErr
          | p :: _ =>
            parLoop d input stop rest (dictSet res n p)
              (errs ++ [(n, PyExc.user args)]) (shouldStop || stop)

/-- `_execute_parallel`: run the task loop, then (when any errors were
collected and `stop_on_failure` is set) mark the engine `FAILED` and raise
`ParallelStepExecutionError(errors)`; otherwise return the result dict. -/
def executeParallel (d : List (String × (Value → StepOutcome))) (input : Value)
    (order : List String) (stop : Bool) : ParOut :=
  match parLoop d input stop order [] [] false with
  | Except.error e => ParOut.raised false e
  | Except.ok (res, errs) =>
    if errs.isEmpty then ParOut.ok res
    else if stop then ParOut.raised true (PyExc.parallelExec errs)
    else ParOut.ok res

/-- Outcome of one iteration of the `while` loop of `execute`: continue
with a new engine state, local `result` variable, remaining completion
orders and an emitted event; or leave `execute` with a raised exception;
or (model artifact) a nested run exhausted its fuel. -/
inductive IterOut where
  | cont (eng : Engine) (rv : Option Value) (orders : List (List String)) (ev : Event)
  | raised (eng : Engine) (ev : Event) (e : PyExc)
  | noFuel

/-- Dict membership plus lookup `branch[result]` on the branch mapping. -/
def branchLookup (b : List (Value × String)) (v : Value) : Option String :=
  match b with
  | [] => Option.none
  | (k, t) :: rest => if Value.beq k v then some t else branchLookup rest v

/-- Lines 215-218 of the source: `if step[ "branch" ] and result in
step[ "branch" ]` selects the branch target, else `next_step`. Reading
`result` when it was never assigned in this `execute` call raises
`NameError` (caught by the surrounding `except`). -/
def selectNext (sd : StepDef) (rv : Option Value) : Except PyExc (Option String) :=
  match sd.branch with
  | [] => Except.ok sd.next_step
  | _ :: _ =>
    match rv with
    | Option.none => Except.error (PyExc.nameErr "name result is not defined")
    | some v =>
      match branchLookup sd.branch v with
      | some t => Except.ok (some t)
      | Option.none => Except.ok sd.next_step

/-- The `except Exception as exc` clause (lines 220-251): extract
`exc.args[0]` (raising `IndexError` when `args` is empty, with nothing
recorded and the status untouched); record the payload in the context;
then either route to `on_failure` (setting `last_result` and `FAILED`) or
mark `FAILED` and raise `StepExecutionError(exc)`. -/
def onExc (eng : Engine) (name : String) (sd : StepDef) (rv : Option Value)
    (orders : List (List String)) (exc : PyExc) : IterOut :=
  match PyExc.args exc with
  | [] => IterOut.raised eng (Event.crashed name) PyExc.indexErr
  | p :: _ =>
    match sd.on_failure with
    | some fstep =>
      IterOut.cont ((((eng.setContext (dictSet eng.context name p)).setCurrent
        (some fstep)).setLastResult p).setStatus Status.failed) rv orders (Event.failed name)
    | Option.none =>
      IterOut.raised ((eng.setContext (dictSet eng.context name p)).setStatus Status.failed)
        (Event.failed name) (PyExc.stepExec exc)

/-- Success epilogue of a loop iteration: next-step selection via
`selectNext`; a `NameError` from the stale-variable branch check flows to
the same `except` clause as an action failure. -/
def afterSuccess (eng : Engine) (name : String) (sd : StepDef) (rv : Option Value)
    (orders : List (List String)) : IterOut :=
  match selectNext sd rv with
  | Except.ok cur => IterOut.cont (eng.setCurrent cur) rv orders (Event.ok name)
  | Except.error e => onExc eng name sd rv orders e

/-- Non-parallel invocation (lines 206-218): call the action on
`last_result`; on success store the result as `last_result`, in the
context, and in the local `result` variable, then select the next step; on
an exception go to the `except` clause. -/
def iterSingle (orders : List (List String)) (eng : Engine) (name : String)
    (sd : StepDef) (rv : Option Value) (f : Value → StepOutcome) : IterOut :=
  match f eng.last_result with
  | StepOutcome.ok v =>
    afterSuccess ((eng.setLastResult v).setContext (dictSet eng.context name v))
      name sd (some v) orders
  | StepOutcome.exn args => onExc eng name sd rv orders (PyExc.user args)

/-- Pop the completion order for the next parallel step from the oracle
list, defaulting to submission order. -/
def popOrder (orders : List (List String)) (dft : List String) :
    List String × List (List String) :=
  match orders with
  | [] => (dft, [])
  | o :: rest => (o, rest)

/-- Parallel invocation (lines 194-204 plus 215-218): delegate to
`_execute_parallel`, on success store the result dict as `last_result`
and in the context, then run the branch check - note that the local
`result` variable is NOT assigned on this path, so the check sees the
stale `rv`. A `func` that is not a dict makes `func_dict.items()` raise
`AttributeError` inside the `try`. -/
def iterParallel (orders : List (List String)) (eng : Engine) (name : String)
    (sd : StepDef) (rv : Option Value) : IterOut :=
  match sd.func with
  | SFunc.tasks d =>
    match executeParallel d eng.last_result (popOrder orders (d.map Prod.fst)).1
        sd.stop_on_failure with
    | ParOut.ok res =>
      afterSuccess ((eng.setLastResult (Value.dict res)).setContext
        (dictSet eng.context name (Value.dict res))) name sd rv
        (popOrder orders (d.map Prod.fst)).2
    | ParOut.raised setFailed e =>
      onExc (if setFailed then eng.setStatus Status.failed else eng) name sd rv
        (popOrder orders (d.map Prod.fst)).2 e
  | _ => onExc eng name sd rv orders PyExc.attrErr

/-- Mutation of the registered `sub_func` closure's captured nested engine
object (Python mutates the nested `StepFunction` in place). -/
def Engine.updateSub (eng : Engine) (name : String) (nested : Engine) : Engine :=
  eng.setSteps (eng.steps.map
    (fun p => if p.1 == name then (p.1, p.2.setFunc (SFunc.sub nested)) else p))

/-- First half of the `sub_func` body when the nested `execute` returned
without raising: merge the nested context into the parent context and copy
a nested `FAILED` status to the parent. -/
def subMergeCtx (eng nested : Engine) : Engine :=
  if nested.status = Status.failed then
    (eng.setContext (dictUpdate eng.context nested.context)).setStatus Status.failed
  else eng.setContext (dictUpdate eng.context nested.context)

/-- Body of `sub_func` after the nested `execute` returned without
raising, followed by the engine's own success bookkeeping: merge the
nested context into the parent context, copy a nested `FAILED` status,
then treat the nested `last_result` as the step's result. -/
def subMerge (eng : Engine) (name : String) (sd : StepDef) (nested : Engine)
    (orders : List (List String)) : IterOut :=
  afterSuccess
    ((subMergeCtx eng nested).setLastResult nested.last_result |>.setContext
      (dictSet (subMergeCtx eng nested).context name nested.last_result))
    name sd (some nested.last_result) orders

/-- Line 253: after each loop iteration, an empty cursor with a
non-`FAILED` status becomes `COMPLETED`. -/
def finishIter (eng : Engine) : Engine :=
  if eng.current_step = Option.none ∧ eng.status ≠ Status.failed then
    eng.setStatus Status.completed
  else eng

/-- Body of one `while` iteration (lines 192-251): registry lookup at the
cursor (`KeyError` escapes uncaught), then the parallel / single-action /
sub-workflow dispatch. `runNested` performs the awaited `execute` of a
captured nested engine (supplied by `execLoop`, which runs it on the
remaining fuel); on a nested exception the closure body after the `await`
is skipped, so no merge happens. -/
def runStep (runNested : Engine → Engine × List Event × ExecResult)
    (orders : List (List String)) (eng : Engine) (name : String)
    (rv : Option Value) : IterOut :=
  match lookupStep eng.steps name with
  | Option.none => IterOut.raised eng (Event.missing name) (PyExc.keyErr name)
  | some sd =>
    if sd.parallel then iterParallel orders eng name sd rv
    else
      match sd.func with
      | SFunc.single f => iterSingle orders eng name sd rv f
      | SFunc.tasks _ => onExc eng name sd rv orders PyExc.typeErr
      | SFunc.sub nested =>
        match runNested nested with
        | (_, _, ExecResult.fuelOut) => IterOut.noFuel
        | (nested', _, ExecResult.raised e) =>
          onExc (eng.updateSub name nested') name sd rv orders e
        | (nested', _, ExecResult.done) =>
          subMerge (eng.updateSub name nested') name sd nested' orders

/-- The `while self.__current_step` loop of `execute`, on fuel. `rv`
models the local variable `result` (unassigned at entry); `tr` accumulates
the event trace. Nested sub-workflow runs are executed with the default
completion orders; `execute` on a nested engine sets its status to
`RUNNING` and seeds its `last_result` with the parent's `last_result`. -/
def execLoop : Nat → List (List String) → Engine → Option Value → List Event →
    Engine × List Event × ExecResult
  | 0, _, eng, _, tr =>
    match eng.current_step with
    | Option.none => (eng, tr, ExecResult.done)
    | some _ => (eng, tr, ExecResult.fuelOut)
  | fuel' + 1, orders, eng, rv, tr =>
    match eng.current_step with
    | Option.none => (eng, tr, ExecResult.done)
    | some name =>
      match runStep
          (fun n => execLoop fuel' []
            ((n.setStatus Status.running).setLastResult eng.last_result)
            Option.none [])
          orders eng name rv with
      | IterOut.noFuel => (eng, tr, ExecResult.fuelOut)
      | IterOut.raised e' ev exc => (e', tr ++ [ev], ExecResult.raised exc)
      | IterOut.cont e' rv' orders' ev => execLoop fuel' orders' (finishIter e') rv' (tr ++ [ev])

/-- `execute(initial_input)`: set status to `RUNNING`, seed `last_result`
with the initial input, and run the loop with the local `result` variable
unassigned. -/
def Engine.execute (fuel : Nat) (orders : List (List String)) (eng : Engine)
    (input : Value) : Engine × List Event × ExecResult :=
  execLoop fuel orders ((eng.setStatus Status.running).setLastResult input) Option.none []

/-- Status values an iteration outcome can carry: the incoming status or
`FAILED` (the only status the loop body ever writes). -/
def IterOut.statusIn (st : Status) : IterOut → Prop
  | IterOut.cont e _ _ _ => e.status = st ∨ e.status = Status.failed
  | IterOut.raised e _ _ => e.status = st ∨ e.status = Status.failed
  | IterOut.noFuel => True

/-- An iteration that emits a `failed` event leaves the engine `FAILED`. -/
def IterOut.failedMarked : IterOut → Prop
  | IterOut.cont e _ _ ev => (∃ n, ev = Event.failed n) → e.status = Status.failed
  | IterOut.raised e ev _ => (∃ n, ev = Event.failed n) → e.status = Status.failed
  | IterOut.noFuel => True

def c8eng : Engine :=
  Engine.mk "w" [("A", StepDef.mk (SFunc.single (fun v => StepOutcome.ok v))
    Option.none Option.none [] false false false)] Option.none Value.vnone [] Status.initialized

def c10eng : Engine :=
  Engine.mk "w" [] Option.none Value.vnone [("old", Value.int 7)] Status.initialized

def c9eng : Engine :=
  Engine.mk "w" [
    ("A", StepDef.mk (SFunc.single (fun _ => StepOutcome.exn []))
      Option.none (some "R") [] false false false),
    ("R", StepDef.mk (SFunc.single (fun _ => StepOutcome.ok Value.vnone))
      Option.none Option.none [] false false false)]
    (some "A") Value.vnone [] Status.initialized

def c5eng : Engine :=
  Engine.mk "w" [
    ("A", StepDef.mk (SFunc.single (fun _ => StepOutcome.exn [Value.str "boom"]))
      (some "B") Option.none [] false false false),
    ("B", StepDef.mk (SFunc.single (fun _ => StepOutcome.ok Value.vnone))
      Option.none Option.none [] false false false)]
    (some "A") Value.vnone [] Status.initialized

def c2eng : Engine :=
  Engine.mk "w" [
    ("A", StepDef.mk (SFunc.single (fun _ => StepOutcome.exn [Value.str "boom"]))
      Option.none (some "Recover") [] false false false),
    ("Recover", StepDef.mk (SFunc.single (fun _ => StepOutcome.ok (Value.str "rec")))
      Option.none Option.none [] false false false)]
    (some "A") Value.vnone [] Status.initialized

def c6sd : StepDef :=
  StepDef.mk (SFunc.single (fun _ => StepOutcome.ok (Value.str "okA")))
    Option.none Option.none [(Value.str "okA", "B"), (Value.str "badA", "C")] false false false

def c6eng : Engine :=
  Engine.mk "w" [
    ("A", c6sd),
    ("B", StepDef.mk (SFunc.single (fun _ => StepOutcome.ok (Value.str "atB")))
      Option.none Option.none [] false false false),
    ("C", StepDef.mk (SFunc.single (fun _ => StepOutcome.ok (Value.str "atC")))
      Option.none Option.none [] false false false)]
    (some "A") Value.vnone [] Status.initialized

def c3tasks : List (String × (Value → StepOutcome)) :=
  [("x", fun _ => StepOutcome.ok (Value.int 1)),
   ("y", fun _ => StepOutcome.exn [Value.str "yfail"])]

def c3sd : StepDef :=
  StepDef.mk (SFunc.tasks c3tasks) Option.none Option.none [] true true false

def c3eng : Engine :=
  Engine.mk "w" [("P", c3sd)] (some "P") Value.vnone [] Status.initialized

def c1nsteps : List (String × StepDef) :=
  [("A", StepDef.mk (SFunc.single (fun _ => StepOutcome.exn [Value.str "boom"]))
    Option.none Option.none [] false false false)]

def c1nested : Engine :=
  Engine.mk "n" c1nsteps (some "A") Value.vnone [] Status.initialized

def c1nestedAfter : Engine :=
  Engine.mk "n" c1nsteps (some "A") Value.vnone [("A", Value.str "boom")] Status.failed

def c1sd : StepDef :=
  StepDef.mk (SFunc.sub c1nested) Option.none Option.none [] false false true

def c1parent : Engine :=
  Engine.mk "p" [("S", c1sd)] (some "S") Value.vnone [] Status.initialized

def c4eng : Engine :=
  Engine.mk "w" [
    ("P", StepDef.mk (SFunc.tasks [("x", fun _ => StepOutcome.ok (Value.int 1)),
        ("y", fun _ => StepOutcome.exn [Value.str "yfail"])])
      (some "B") Option.none [(Value.int 1, "B")] true false false),
    ("B", StepDef.mk (SFunc.single (fun _ => StepOutcome.ok (Value.str "atB")))
      Option.none Option.none [] false false false)]
    (some "P") Value.vnone [] Status.initialized

def c7eng : Engine :=
  Engine.mk "w" [
    ("A", StepDef.mk (SFunc.single (fun _ => StepOutcome.ok (Value.str "k")))
      (some "P") Option.none [] false false false),
    ("P", StepDef.mk (SFunc.tasks [("t", fun _ => StepOutcome.ok (Value.int 1))])
      (some "B") Option.none [(Value.str "k", "C")] true false false),
    ("B", StepDef.mk (SFunc.single (fun _ => StepOutcome.ok (Value.str "atB")))
      Option.none Option.none [] false false false),
    ("C", StepDef.mk (SFunc.single (fun _ => StepOutcome.ok (Value.str "atC")))
      Option.none Option.none [] false false false)]
    (some "A") Value.vnone [] Status.initialized

@[simp] theorem Engine.steps_setSteps (e : Engine) (x : List (String × StepDef)) :
    (e.setSteps x).steps = x := by cases e; rfl

@[simp] theorem Engine.current_setSteps (e : Engine) (x : List (String × StepDef)) :
    (e.setSteps x).current_step = e.current_step := by cases e; rfl

@[simp] theorem Engine.last_setSteps (e : Engine) (x : List (String × StepDef)) :
    (e.setSteps x).last_result = e.last_result := by cases e; rfl

@[simp] theorem Engine.context_setSteps (e : Engine) (x : List (String × StepDef)) :
    (e.setSteps x).context = e.context := by cases e; rfl

@[simp] theorem Engine.status_setSteps (e : Engine) (x : List (String × StepDef)) :
    (e.setSteps x).status = e.status := by cases e; rfl

@[simp] theorem Engine.steps_setCurrent (e : Engine) (x : Option String) :
    (e.setCurrent x).steps = e.steps := by cases e; rfl

@[simp] theorem Engine.current_setCurrent (e : Engine) (x : Option String) :
    (e.setCurrent x).current_step = x := by cases e; rfl

@[simp] theorem Engine.last_setCurrent (e : Engine) (x : Option String) :
    (e.setCurrent x).last_result = e.last_result := by cases e; rfl

@[simp] theorem Engine.context_setCurrent (e : Engine) (x : Option String) :
    (e.setCurrent x).context = e.context := by cases e; rfl

@[simp] theorem Engine.status_setCurrent (e : Engine) (x : Option String) :
    (e.setCurrent x).status = e.status := by cases e; rfl

@[simp] theorem Engine.steps_setLastResult (e : Engine) (x : Value) :
    (e.setLastResult x).steps = e.steps := by cases e; rfl

@[simp] theorem Engine.current_setLastResult (e : Engine) (x : Value) :
    (e.setLastResult x).current_step = e.current_step := by cases e; rfl

@[simp] theorem Engine.last_setLastResult (e : Engine) (x : Value) :
    (e.setLastResult x).last_result = x := by cases e; rfl

@[simp] theorem Engine.context_setLastResult (e : Engine) (x : Value) :
    (e.setLastResult x).context = e.context := by cases e; rfl

@[simp] theorem Engine.status_setLastResult (e : Engine) (x : Value) :
    (e.setLastResult x).status = e.status := by cases e; rfl

@[simp] theorem Engine.steps_setContext (e : Engine) (x : List (String × Value)) :
    (e.setContext x).steps = e.steps := by cases e; rfl

@[simp] theorem Engine.current_setContext (e : Engine) (x : List (String × Value)) :
    (e.setContext x).current_step = e.current_step := by cases e; rfl

@[simp] theorem Engine.last_setContext (e : Engine) (x : List (String × Value)) :
    (e.setContext x).last_result = e.last_result := by cases e; rfl

@[simp] theorem Engine.context_setContext (e : Engine) (x : List (String × Value)) :
    (e.setContext x).context = x := by cases e; rfl

@[simp] theorem Engine.status_setContext (e : Engine) (x : List (String × Value)) :
    (e.setContext x).status = e.status := by cases e; rfl

@[simp] theorem Engine.steps_setStatus (e : Engine) (x : Status) :
    (e.setStatus x).steps = e.steps := by cases e; rfl

@[simp] theorem Engine.current_setStatus (e : Engine) (x : Status) :
    (e.setStatus x).current_step = e.current_step := by cases e; rfl

@[simp] theorem Engine.last_setStatus (e : Engine) (x : Status) :
    (e.setStatus x).last_result = e.last_result := by cases e; rfl

@[simp] theorem Engine.context_setStatus (e : Engine) (x : Status) :
    (e.setStatus x).context = e.context := by cases e; rfl

@[simp] theorem Engine.status_setStatus (e : Engine) (x : Status) :
    (e.setStatus x).status = x := by cases e; rfl

@[simp] theorem Engine.current_updateSub (e : Engine) (n : String) (x : Engine) :
    (e.updateSub n x).current_step = e.current_step := by
  cases e; simp [Engine.updateSub]

@[simp] theorem Engine.last_updateSub (e : Engine) (n : String) (x : Engine) :
    (e.updateSub n x).last_result = e.last_result := by
  cases e; simp [Engine.updateSub]

@[simp] theorem Engine.context_updateSub (e : Engine) (n : String) (x : Engine) :
    (e.updateSub n x).context = e.context := by
  cases e; simp [Engine.updateSub]

@[simp] theorem Engine.status_updateSub (e : Engine) (n : String) (x : Engine) :
    (e.updateSub n x).status = e.status := by
  cases e; simp [Engine.updateSub]

theorem IterOut.statusIn_mono {st st' : Status} {o : IterOut}
    (h : IterOut.statusIn st o) (hst : st = st' ∨ st = Status.failed) :
    IterOut.statusIn st' o := by
  cases o with
  | noFuel => trivial
  | cont e r os ev =>
    simp only [IterOut.statusIn] at h ⊢
    rcases h with h | h
    · rcases hst with hst | hst
      · exact Or.inl (h.trans hst)
      · exact Or.inr (h.trans hst)
    · exact Or.inr h
  | raised e ev exc =>
    simp only [IterOut.statusIn] at h ⊢
    rcases h with h | h
    · rcases hst with hst | hst
      · exact Or.inl (h.trans hst)
      · exact Or.inr (h.trans hst)
    · exact Or.inr h

theorem onExc_statusIn (eng : Engine) (name : String) (sd : StepDef) (rv : Option Value)
    (orders : List (List String)) (exc : PyExc) :
    IterOut.statusIn eng.status (onExc eng name sd rv orders exc) := by
  unfold onExc
  split
  · exact Or.inl rfl
  · split
    · simp [IterOut.statusIn]
    · simp [IterOut.statusIn]

theorem afterSuccess_statusIn (eng : Engine) (name : String) (sd : StepDef)
    (rv : Option Value) (orders : List (List String)) :
    IterOut.statusIn eng.status (afterSuccess eng name sd rv orders) := by
  unfold afterSuccess
  split
  · simp [IterOut.statusIn]
  · apply onExc_statusIn

theorem iterSingle_statusIn (orders : List (List String)) (eng : Engine) (name : String)
    (sd : StepDef) (rv : Option Value) (f : Value → StepOutcome) :
    IterOut.statusIn eng.status (iterSingle orders eng name sd rv f) := by
  unfold iterSingle
  split
  · refine IterOut.statusIn_mono (afterSuccess_statusIn _ name sd _ orders) ?_
    simp
  · apply onExc_statusIn

theorem iterParallel_statusIn (orders : List (List String)) (eng : Engine) (name : String)
    (sd : StepDef) (rv : Option Value) :
    IterOut.statusIn eng.status (iterParallel orders eng name sd rv) := by
  unfold iterParallel
  split
  · split
    · refine IterOut.statusIn_mono (afterSuccess_statusIn _ name sd _ _) ?_
      simp
    · rename_i setFailed e heq
      cases setFailed
      · simpa using onExc_statusIn eng name sd rv _ e
      · refine IterOut.statusIn_mono
          (onExc_statusIn (eng.setStatus Status.failed) name sd rv _ e) ?_
        simp
  · apply onExc_statusIn

theorem subMerge_statusIn (eng : Engine) (name : String) (sd : StepDef) (nested : Engine)
    (orders : List (List String)) :
    IterOut.statusIn eng.status (subMerge eng name sd nested orders) := by
  unfold subMerge
  refine IterOut.statusIn_mono (afterSuccess_statusIn _ name sd _ orders) ?_
  unfold subMergeCtx
  split
  · simp
  · simp

theorem runStep_statusIn (rn : Engine → Engine × List Event × ExecResult)
    (orders : List (List String)) (eng : Engine) (name : String) (rv : Option Value) :
    IterOut.statusIn eng.status (runStep rn orders eng name rv) := by
  unfold runStep
  split
  · exact Or.inl rfl
  · split
    · apply iterParallel_statusIn
    · split
      · apply iterSingle_statusIn
      · apply onExc_statusIn
      · split
        · trivial
        · refine IterOut.statusIn_mono (onExc_statusIn _ name _ rv orders _) ?_
          simp
        · refine IterOut.statusIn_mono (subMerge_statusIn _ name _ _ orders) ?_
          simp

/-- Once the engine is `FAILED`, the loop never changes that (failure is
sticky within one run). -/
theorem execLoop_sticky : ∀ (fuel : Nat) (orders : List (List String)) (eng : Engine)
    (rv : Option Value) (tr : List Event), eng.status = Status.failed →
    (execLoop fuel orders eng rv tr).1.status = Status.failed := by
  intro fuel
  induction fuel with
  | zero =>
    intro orders eng rv tr h
    unfold execLoop
    split
    · exact h
    · exact h
  | succ fuel' ih =>
    intro orders eng rv tr h
    unfold execLoop
    split
    · exact h
    · rename_i name hc
      have hst := runStep_statusIn
        (fun n => execLoop fuel' []
          ((n.setStatus Status.running).setLastResult eng.last_result) Option.none [])
        orders eng name rv
      split
      · exact h
      · rename_i e' ev exc hout
        rw [hout] at hst
        simp only [IterOut.statusIn] at hst
        rcases hst with hst | hst
        · exact hst.trans h
        · exact hst
      · rename_i e' rv' orders' ev hout
        rw [hout] at hst
        simp only [IterOut.statusIn] at hst
        have he' : e'.status = Status.failed := by
          rcases hst with hst | hst
          · exact hst.trans h
          · exact hst
        have hfin : (finishIter e').status = Status.failed := by
          unfold finishIter
          split
          · rename_i hcond
            exact absurd he' hcond.2
          · exact he'
        exact ih orders' (finishIter e') rv' (tr ++ [ev]) hfin

theorem execLoop_done (fuel : Nat) (orders : List (List String)) (eng : Engine)
    (rv : Option Value) (tr : List Event) (h : eng.current_step = Option.none) :
    execLoop fuel orders eng rv tr = (eng, tr, ExecResult.done) := by
  cases fuel with
  | zero => unfold execLoop; rw [h]
  | succ fuel' => unfold execLoop; rw [h]

theorem onExc_failedMarked (eng : Engine) (name : String) (sd : StepDef) (rv : Option Value)
    (orders : List (List String)) (exc : PyExc) :
    IterOut.failedMarked (onExc eng name sd rv orders exc) := by
  unfold onExc
  split
  · rintro ⟨n, hn⟩
    exact absurd hn (by simp)
  · split
    · intro _
      simp
    · intro _
      simp

theorem afterSuccess_failedMarked (eng : Engine) (name : String) (sd : StepDef)
    (rv : Option Value) (orders : List (List String)) :
    IterOut.failedMarked (afterSuccess eng name sd rv orders) := by
  unfold afterSuccess
  split
  · rintro ⟨n, hn⟩
    exact absurd hn (by simp)
  · apply onExc_failedMarked

theorem iterSingle_failedMarked (orders : List (List String)) (eng : Engine) (name : String)
    (sd : StepDef) (rv : Option Value) (f : Value → StepOutcome) :
    IterOut.failedMarked (iterSingle orders eng name sd rv f) := by
  unfold iterSingle
  split
  · apply afterSuccess_failedMarked
  · apply onExc_failedMarked

theorem iterParallel_failedMarked (orders : List (List String)) (eng : Engine) (name : String)
    (sd : StepDef) (rv : Option Value) :
    IterOut.failedMarked (iterParallel orders eng name sd rv) := by
  unfold iterParallel
  split
  · split
    · apply afterSuccess_failedMarked
    · apply onExc_failedMarked
  · apply onExc_failedMarked

theorem subMerge_failedMarked (eng : Engine) (name : String) (sd : StepDef) (nested : Engine)
    (orders : List (List String)) :
    IterOut.failedMarked (subMerge eng name sd nested orders) := by
  unfold subMerge
  apply afterSuccess_failedMarked

theorem runStep_failedMarked (rn : Engine → Engine × List Event × ExecResult)
    (orders : List (List String)) (eng : Engine) (name : String) (rv : Option Value) :
    IterOut.failedMarked (runStep rn orders eng name rv) := by
  unfold runStep
  split
  · rintro ⟨n, hn⟩
    exact absurd hn (by simp)
  · split
    · apply iterParallel_failedMarked
    · split
      · apply iterSingle_failedMarked
      · apply onExc_failedMarked
      · split
        · trivial
        · apply onExc_failedMarked
        · apply subMerge_failedMarked

/-- Any `failed` event emitted during a run pins the final status to
`FAILED`. -/
theorem execLoop_failed_of_ev : ∀ (fuel : Nat) (orders : List (List String)) (eng : Engine)
    (rv : Option Value) (tr : List Event) (n : String),
    Event.failed n ∈ (execLoop fuel orders eng rv tr).2.1 →
    Event.failed n ∉ tr →
    (execLoop fuel orders eng rv tr).1.status = Status.failed := by
  intro fuel
  induction fuel with
  | zero =>
    intro orders eng rv tr n hmem hnin
    unfold execLoop at hmem ⊢
    rcases hc : eng.current_step with _ | nm
    · rw [hc] at hmem
      exact absurd hmem hnin
    · rw [hc] at hmem
      exact absurd hmem hnin
  | succ fuel' ih =>
    intro orders eng rv tr n hmem hnin
    unfold execLoop at hmem ⊢
    split at hmem
    · exact absurd hmem hnin
    · rename_i name hc
      have hfm := runStep_failedMarked
        (fun nn => execLoop fuel' []
          ((nn.setStatus Status.running).setLastResult eng.last_result) Option.none [])
        orders eng name rv
      split at hmem
      · exact absurd hmem hnin
      · rename_i e' ev exc hout
        rw [hout] at hfm
        simp only [IterOut.failedMarked] at hfm
        simp only [List.mem_append, List.mem_singleton] at hmem
        rcases hmem with hmem | hmem
        · exact absurd hmem hnin
        · exact hfm ⟨n, hmem.symm⟩
      · rename_i e' rv' orders' ev hout
        rw [hout] at hfm
        simp only [IterOut.failedMarked] at hfm
        by_cases hev : ∃ m, ev = Event.failed m
        · have he' := hfm hev
          have hfin : (finishIter e').status = Status.failed := by
            unfold finishIter
            split
            · rename_i hcond
              exact absurd he' hcond.2
            · exact he'
          exact execLoop_sticky fuel' orders' (finishIter e') rv' (tr ++ [ev]) hfin
        · refine ih orders' (finishIter e') rv' (tr ++ [ev]) n hmem ?_
          simp only [List.mem_append, List.mem_singleton]
          rintro (h | h)
          · exact hnin h
          · exact hev ⟨n, h.symm⟩

/-- `COMPLETED` can only appear at the end of a run: when it does, the
cursor is empty and `execute` returned normally. -/
theorem execLoop_completed : ∀ (fuel : Nat) (orders : List (List String)) (eng : Engine)
    (rv : Option Value) (tr : List Event),
    eng.status ≠ Status.completed →
    (execLoop fuel orders eng rv tr).1.status = Status.completed →
    (execLoop fuel orders eng rv tr).1.current_step = Option.none ∧
    (execLoop fuel orders eng rv tr).2.2 = ExecResult.done := by
  intro fuel
  induction fuel with
  | zero =>
    intro orders eng rv tr hne hfin
    unfold execLoop at hfin ⊢
    rcases hc : eng.current_step with _ | nm
    · rw [hc] at hfin ⊢
      exact absurd hfin hne
    · rw [hc] at hfin
      exact absurd hfin hne
  | succ fuel' ih =>
    intro orders eng rv tr hne hfin
    unfold execLoop at hfin ⊢
    split at hfin
    · exact absurd hfin hne
    · rename_i name hc
      have hst := runStep_statusIn
        (fun nn => execLoop fuel' []
          ((nn.setStatus Status.running).setLastResult eng.last_result) Option.none [])
        orders eng name rv
      split at hfin
      · exact absurd hfin hne
      · rename_i e' ev exc hout
        rw [hout] at hst
        simp only [IterOut.statusIn] at hst
        rcases hst with hst | hst
        · exact absurd (hst.symm.trans hfin) hne
        · rw [hst] at hfin
          exact absurd hfin (by simp)
      · rename_i e' rv' orders' ev hout
        rw [hout] at hst
        simp only [IterOut.statusIn] at hst
        by_cases hcond : e'.current_step = Option.none ∧ e'.status ≠ Status.failed
        · have hfi : finishIter e' = e'.setStatus Status.completed := by
            unfold finishIter
            rw [if_pos hcond]
          rw [hfi, execLoop_done fuel' orders' _ rv' _ (by simp [hcond.1])]
          simp [hcond.1]
        · have hfi : finishIter e' = e' := by
            unfold finishIter
            rw [if_neg hcond]
          rw [hfi] at hfin ⊢
          refine ih orders' e' rv' (tr ++ [ev]) ?_ hfin
          rcases hst with hst | hst
          · rw [hst]
            exact hne
          · rw [hst]
            simp

/-- Claim C8: a registration whose name is already present in the registry
fails with the duplicate-step error (the `ValueError` the specification
calls `DuplicateStepError`) and produces no new registry: no `Except.ok`
engine is returned, so the existing definition is untouched and no entry is
added. -/
theorem c8_duplicate_add_step (eng : Engine) (name : String) (func : SFunc)
    (ns onf : Option String) (br : List (Value × String)) (par stp : Bool)
    (h : eng.steps.any (fun p => p.1 == name) = true) :
    Engine.add_step eng name func ns onf br par stp =
      Except.error ("Step " ++ name ++ " already exists in steps") ∧
    ∀ eng', Engine.add_step eng name func ns onf br par stp ≠ Except.ok eng' := by
  unfold Engine.add_step
  rw [if_pos h]
  exact ⟨rfl, fun eng' hc => Except.noConfusion hc⟩

/-- Claim C8 witness: registering `A` twice on a concrete engine fails. -/
theorem c8_witness :
    Engine.add_step c8eng "A" (SFunc.single (fun _ => StepOutcome.ok Value.vnone))
      Option.none Option.none [] false false =
      Except.error ("Step " ++ "A" ++ " already exists in steps") :=
  (c8_duplicate_add_step c8eng "A" _ Option.none Option.none [] false false (by decide)).1

/-- Claim C10: calling `execute` while the cursor is empty runs no step,
sets `last_result` to the initial input, leaves the context unchanged, and
sets the status to `RUNNING`, where it stays (never `COMPLETED` or
`FAILED`). -/
theorem c10_execute_empty_cursor (fuel : Nat) (orders : List (List String)) (eng : Engine)
    (input : Value) (h : eng.current_step = Option.none) :
    Engine.execute fuel orders eng input =
      ((eng.setStatus Status.running).setLastResult input, [], ExecResult.done) ∧
    ((eng.setStatus Status.running).setLastResult input).status = Status.running ∧
    ((eng.setStatus Status.running).setLastResult input).context = eng.context ∧
    ((eng.setStatus Status.running).setLastResult input).last_result = input := by
  refine ⟨?_, by simp, by simp, by simp⟩
  unfold Engine.execute
  exact execLoop_done fuel orders _ Option.none [] (by simp [h])

/-- Claim C10 witness: a concrete engine with no start step set. -/
theorem c10_witness :
    Engine.execute 3 [] c10eng (Value.int 5) =
      ((c10eng.setStatus Status.running).setLastResult (Value.int 5), [], ExecResult.done) ∧
    ((c10eng.setStatus Status.running).setLastResult (Value.int 5)).status = Status.running ∧
    ((c10eng.setStatus Status.running).setLastResult (Value.int 5)).context = c10eng.context ∧
    ((c10eng.setStatus Status.running).setLastResult (Value.int 5)).last_result = Value.int 5 :=
  c10_execute_empty_cursor 3 [] c10eng (Value.int 5) rfl

/-- Claim C9: a non-parallel step raising an exception with an empty
`args` tuple makes `execute` propagate the `IndexError` from
`exc.args[0]` (not a `StepExecutionError`); the failure is not recorded in
the context, `on_failure` is not taken, and the status stays `RUNNING`. -/
theorem c9_empty_args_crash (fuel : Nat) (orders : List (List String)) (eng : Engine)
    (input : Value) (name : String) (sd : StepDef) (f : Value → StepOutcome)
    (hcur : eng.current_step = some name)
    (hlk : lookupStep eng.steps name = some sd)
    (hpar : sd.parallel = false)
    (hfn : sd.func = SFunc.single f)
    (hexn : f input = StepOutcome.exn []) :
    Engine.execute (fuel + 1) orders eng input =
      ((eng.setStatus Status.running).setLastResult input,
        [Event.crashed name], ExecResult.raised PyExc.indexErr) ∧
    (Engine.execute (fuel + 1) orders eng input).1.status = Status.running ∧
    (Engine.execute (fuel + 1) orders eng input).1.context = eng.context ∧
    (∀ e0, (Engine.execute (fuel + 1) orders eng input).2.2 ≠
      ExecResult.raised (PyExc.stepExec e0)) := by
  have hmain : Engine.execute (fuel + 1) orders eng input =
      ((eng.setStatus Status.running).setLastResult input,
        [Event.crashed name], ExecResult.raised PyExc.indexErr) := by
    unfold Engine.execute execLoop runStep iterSingle onExc
    simp [hcur, hlk, hpar, hfn, hexn, PyExc.args]
  refine ⟨hmain, ?_, ?_, ?_⟩
  · rw [hmain]; simp
  · rw [hmain]; simp
  · rw [hmain]
    intro e0 hc
    simp at hc

/-- Claim C9 witness: a concrete step raising an empty-args exception even
though an `on_failure` handler is registered. -/
theorem c9_witness :
    Engine.execute 4 [] c9eng Value.vnone =
      ((c9eng.setStatus Status.running).setLastResult Value.vnone,
        [Event.crashed "A"], ExecResult.raised PyExc.indexErr) ∧
    (Engine.execute 4 [] c9eng Value.vnone).1.status = Status.running ∧
    (Engine.execute 4 [] c9eng Value.vnone).1.context = c9eng.context ∧
    (∀ e0, (Engine.execute 4 [] c9eng Value.vnone).2.2 ≠
      ExecResult.raised (PyExc.stepExec e0)) :=
  c9_empty_args_crash 3 [] c9eng Value.vnone "A"
    (StepDef.mk (SFunc.single (fun _ => StepOutcome.exn []))
      Option.none (some "R") [] false false false)
    (fun _ => StepOutcome.exn []) rfl rfl rfl rfl rfl

/-- Claim C5: a non-parallel step that fails with a payload and has no
`on_failure` makes `execute` raise a `StepExecutionError` wrapping the
original exception; no further step runs (the trace is the single failure
event), the status is `FAILED`, and the context holds the failure payload
under the step name. -/
theorem c5_failure_without_handler (fuel : Nat) (orders : List (List String)) (eng : Engine)
    (input : Value) (name : String) (sd : StepDef) (f : Value → StepOutcome)
    (p : Value) (rest : List Value)
    (hcur : eng.current_step = some name)
    (hlk : lookupStep eng.steps name = some sd)
    (hpar : sd.parallel = false)
    (hfn : sd.func = SFunc.single f)
    (hexn : f input = StepOutcome.exn (p :: rest))
    (honf : sd.on_failure = Option.none) :
    Engine.execute (fuel + 1) orders eng input =
      (((((eng.setStatus Status.running).setLastResult input).setContext
          (dictSet eng.context name p)).setStatus Status.failed),
        [Event.failed name],
        ExecResult.raised (PyExc.stepExec (PyExc.user (p :: rest)))) ∧
    (Engine.execute (fuel + 1) orders eng input).1.status = Status.failed ∧
    (Engine.execute (fuel + 1) orders eng input).1.context = dictSet eng.context name p ∧
    (Engine.execute (fuel + 1) orders eng input).2.1 = [Event.failed name] := by
  have hmain : Engine.execute (fuel + 1) orders eng input =
      (((((eng.setStatus Status.running).setLastResult input).setContext
          (dictSet eng.context name p)).setStatus Status.failed),
        [Event.failed name],
        ExecResult.raised (PyExc.stepExec (PyExc.user (p :: rest)))) := by
    unfold Engine.execute execLoop runStep iterSingle onExc
    simp [hcur, hlk, hpar, hfn, hexn, honf, PyExc.args]
  refine ⟨hmain, ?_, ?_, ?_⟩
  · rw [hmain]; simp
  · rw [hmain]; simp
  · rw [hmain]

/-- Claim C5 witness: a concrete failing step without a handler. -/
theorem c5_witness :
    Engine.execute 4 [] c5eng (Value.int 0) =
      (((((c5eng.setStatus Status.running).setLastResult (Value.int 0)).setContext
          (dictSet c5eng.context "A" (Value.str "boom"))).setStatus Status.failed),
        [Event.failed "A"],
        ExecResult.raised (PyExc.stepExec (PyExc.user [Value.str "boom"]))) ∧
    (Engine.execute 4 [] c5eng (Value.int 0)).1.status = Status.failed ∧
    (Engine.execute 4 [] c5eng (Value.int 0)).1.context =
      dictSet c5eng.context "A" (Value.str "boom") ∧
    (Engine.execute 4 [] c5eng (Value.int 0)).2.1 = [Event.failed "A"] :=
  c5_failure_without_handler 3 [] c5eng (Value.int 0) "A"
    (StepDef.mk (SFunc.single (fun _ => StepOutcome.exn [Value.str "boom"]))
      (some "B") Option.none [] false false false)
    (fun _ => StepOutcome.exn [Value.str "boom"]) (Value.str "boom") []
    rfl rfl rfl rfl rfl rfl

theorem finishIter_current (e : Engine) : (finishIter e).current_step = e.current_step := by
  unfold finishIter
  split
  · simp
  · rfl

/-- Claim C2: in any `execute` run, once some step fails (a `failed` event
is emitted) the final status is `FAILED`; and the final status is
`COMPLETED` only when no step failed during the run, the cursor ended
empty, and the run returned normally - failure is sticky even when the
`on_failure` handlers that run afterwards all succeed. -/
theorem c2_failed_is_sticky (fuel : Nat) (orders : List (List String)) (eng : Engine)
    (input : Value) :
    (∀ n, Event.failed n ∈ (Engine.execute fuel orders eng input).2.1 →
      (Engine.execute fuel orders eng input).1.status = Status.failed) ∧
    ((Engine.execute fuel orders eng input).1.status = Status.completed →
      (∀ n, Event.failed n ∉ (Engine.execute fuel orders eng input).2.1) ∧
      (Engine.execute fuel orders eng input).1.current_step = Option.none ∧
      (Engine.execute fuel orders eng input).2.2 = ExecResult.done) := by
  constructor
  · intro n hmem
    exact execLoop_failed_of_ev fuel orders _ Option.none [] n hmem (by simp)
  · intro hcomp
    refine ⟨?_, ?_, ?_⟩
    · intro n hmem
      have hfail := execLoop_failed_of_ev fuel orders _ Option.none [] n hmem (by simp)
      have hcomp' : (execLoop fuel orders ((eng.setStatus Status.running).setLastResult input)
          Option.none []).1.status = Status.completed := hcomp
      rw [hfail] at hcomp'
      exact absurd hcomp' (by simp)
    · exact (execLoop_completed fuel orders _ Option.none [] (by simp) hcomp).1
    · exact (execLoop_completed fuel orders _ Option.none [] (by simp) hcomp).2

/-- Claim C2 witness: step `A` fails, handler `Recover` succeeds and ends
the run, yet the final status is `FAILED`. -/
theorem c2_witness : (Engine.execute 4 [] c2eng Value.vnone).1.status = Status.failed :=
  (c2_failed_is_sticky 4 [] c2eng Value.vnone).1 "A" (by decide)

theorem selectNext_some (sd : StepDef) (v : Value) :
    selectNext sd (some v) = Except.ok
      (match branchLookup sd.branch v with
       | some t => some t
       | Option.none => sd.next_step) := by
  unfold selectNext
  cases hb : sd.branch with
  | nil => simp [hb, branchLookup]
  | cons hd tl =>
    simp only [hb]
    cases hbl : branchLookup (hd :: tl) v with
    | none => simp [hbl]
    | some t => simp [hbl]

/-- Claim C6: after a successful non-parallel step with result `v`, the
cursor becomes the branch target when `v` is a key of the (non-empty)
branch mapping, and `next_step` otherwise; when that choice is empty, the
loop terminates immediately after this step. -/
theorem c6_next_step_selection (fuel : Nat) (orders : List (List String)) (eng : Engine)
    (rv : Option Value) (tr : List Event) (name : String) (sd : StepDef)
    (f : Value → StepOutcome) (v : Value)
    (hcur : eng.current_step = some name)
    (hlk : lookupStep eng.steps name = some sd)
    (hpar : sd.parallel = false)
    (hfn : sd.func = SFunc.single f)
    (hok : f eng.last_result = StepOutcome.ok v) :
    execLoop (fuel + 1) orders eng rv tr =
      execLoop fuel orders
        (finishIter (((eng.setLastResult v).setContext (dictSet eng.context name v)).setCurrent
          (match branchLookup sd.branch v with
           | some t => some t
           | Option.none => sd.next_step)))
        (some v) (tr ++ [Event.ok name]) ∧
    (((eng.setLastResult v).setContext (dictSet eng.context name v)).setCurrent
        (match branchLookup sd.branch v with
         | some t => some t
         | Option.none => sd.next_step)).current_step =
      (match branchLookup sd.branch v with
       | some t => some t
       | Option.none => sd.next_step) ∧
    ((match branchLookup sd.branch v with
      | some t => some t
      | Option.none => sd.next_step) = (Option.none : Option String) →
      execLoop (fuel + 1) orders eng rv tr =
        (finishIter (((eng.setLastResult v).setContext (dictSet eng.context name v)).setCurrent
          Option.none), tr ++ [Event.ok name], ExecResult.done)) := by
  have hmain : execLoop (fuel + 1) orders eng rv tr =
      execLoop fuel orders
        (finishIter (((eng.setLastResult v).setContext (dictSet eng.context name v)).setCurrent
          (match branchLookup sd.branch v with
           | some t => some t
           | Option.none => sd.next_step)))
        (some v) (tr ++ [Event.ok name]) := by
    conv_lhs => unfold execLoop
    unfold runStep iterSingle afterSuccess
    simp [hcur, hlk, hpar, hfn, hok, selectNext_some]
  refine ⟨hmain, by simp, ?_⟩
  intro hnone
  rw [hnone] at hmain
  rw [hmain]
  exact execLoop_done fuel orders _ (some v) _ (by rw [finishIter_current]; simp)

/-- Claim C6 witness: result `okA` with branch `okA to B, badA to C` moves
the cursor to `B`. -/
theorem c6_witness :
    (((c6eng.setLastResult (Value.str "okA")).setContext
        (dictSet c6eng.context "A" (Value.str "okA"))).setCurrent
      (match branchLookup c6sd.branch (Value.str "okA") with
       | some t => some t
       | Option.none => c6sd.next_step)).current_step = some "B" := by
  have h := (c6_next_step_selection 3 [] c6eng Option.none [] "A" c6sd
    (fun _ => StepOutcome.ok (Value.str "okA")) (Value.str "okA") rfl rfl rfl rfl rfl).2.1
  exact h.trans rfl

theorem onExc_ne_noFuel (eng : Engine) (name : String) (sd : StepDef) (rv : Option Value)
    (orders : List (List String)) (exc : PyExc) :
    onExc eng name sd rv orders exc ≠ IterOut.noFuel := by
  unfold onExc
  split
  · simp
  · split
    · simp
    · simp

theorem parLoop_stopped (d : List (String × (Value → StepOutcome))) (input : Value)
    (stop : Bool) (rest : List String) (res : List (String × Value))
    (errs : List (String × PyExc)) :
    parLoop d input stop rest res errs true = Except.ok (res, errs) := by
  cases rest with
  | nil => rfl
  | cons n r => rfl

theorem parLoop_first_failure (d : List (String × (Value → StepOutcome))) (input : Value) :
    ∀ (order : List String) (res : List (String × Value)),
    (∀ nm g, lookupTask d nm = some g →
      ∀ args, g input = StepOutcome.exn args → args ≠ []) →
    (∃ nm ∈ order, ∃ g, lookupTask d nm = some g ∧
      ∃ args, g input = StepOutcome.exn args) →
    ∃ nm args res', parLoop d input true order res [] false =
        Except.ok (res', [(nm, PyExc.user args)]) ∧
      ∃ g, lookupTask d nm = some g ∧ g input = StepOutcome.exn args := by
  intro order
  induction order with
  | nil =>
    intro res hpay hfail
    rcases hfail with ⟨nm, hmem, _⟩
    exact absurd hmem (by simp)
  | cons n rest ih =>
    intro res hpay hfail
    unfold parLoop
    simp only [Bool.false_eq_true, if_false]
    split
    · rename_i hlt
      apply ih res hpay
      rcases hfail with ⟨nm, hmem, g, hg, hargs⟩
      rcases List.mem_cons.mp hmem with heq | hmem2
      · subst heq
        rw [hlt] at hg
        exact absurd hg (by simp)
      · exact ⟨nm, hmem2, g, hg, hargs⟩
    · rename_i f hlt
      split
      · rename_i v hres
        apply ih (dictSet res n v) hpay
        rcases hfail with ⟨nm, hmem, g, hg, args, hargs⟩
        rcases List.mem_cons.mp hmem with heq | hmem2
        · subst heq
          rw [hlt] at hg
          injection hg with hg2
          rw [← hg2, hres] at hargs
          exact absurd hargs (by simp)
        · exact ⟨nm, hmem2, g, hg, args, hargs⟩
      · rename_i args hres
        cases args with
        | nil => exact absurd rfl (hpay n f hlt [] hres)
        | cons p ar =>
          exact ⟨n, p :: ar, dictSet res n p,
            parLoop_stopped d input true rest (dictSet res n p) [(n, PyExc.user (p :: ar))],
            f, hlt, hres⟩

/-- Claim C3: a parallel step with `stop_on_failure` and at least one
failing task (all failures carrying payloads) raises
`ParallelStepExecutionError` carrying exactly the pairs observed before
abandonment - the singleton first failure in completion order, since the
loop breaks at the next completion - and the run ends with status
`FAILED`. -/
theorem c3_parallel_stop_on_failure (fuel : Nat) (order : List String) (eng : Engine)
    (rv : Option Value) (tr : List Event) (name : String) (sd : StepDef)
    (d : List (String × (Value → StepOutcome)))
    (hcur : eng.current_step = some name)
    (hlk : lookupStep eng.steps name = some sd)
    (hpar : sd.parallel = true)
    (hstop : sd.stop_on_failure = true)
    (hfn : sd.func = SFunc.tasks d)
    (hpay : ∀ nm g, lookupTask d nm = some g →
      ∀ args, g eng.last_result = StepOutcome.exn args → args ≠ [])
    (hfail : ∃ nm ∈ order, ∃ g, lookupTask d nm = some g ∧
      ∃ args, g eng.last_result = StepOutcome.exn args) :
    ∃ nm args,
      executeParallel d eng.last_result order sd.stop_on_failure =
        ParOut.raised true (PyExc.parallelExec [(nm, PyExc.user args)]) ∧
      (∃ g, lookupTask d nm = some g ∧ g eng.last_result = StepOutcome.exn args) ∧
      (execLoop (fuel + 1) [order] eng rv tr).1.status = Status.failed := by
  obtain ⟨nm, args, res', hploop, g, hg, hargs⟩ :=
    parLoop_first_failure d eng.last_result order [] hpay hfail
  have hexe : executeParallel d eng.last_result order true =
      ParOut.raised true (PyExc.parallelExec [(nm, PyExc.user args)]) := by
    unfold executeParallel
    rw [hploop]
    simp
  have hrun : runStep
      (fun n => execLoop fuel []
        ((n.setStatus Status.running).setLastResult eng.last_result) Option.none [])
      [order] eng name rv =
      onExc (eng.setStatus Status.failed) name sd rv []
        (PyExc.parallelExec [(nm, PyExc.user args)]) := by
    unfold runStep iterParallel
    rw [hlk]
    simp only [hpar, if_true, hfn]
    rw [show (popOrder [order] (d.map Prod.fst)).1 = order from rfl, hstop, hexe]
    rfl
  refine ⟨nm, args, by rw [hstop]; exact hexe, ⟨g, hg, hargs⟩, ?_⟩
  unfold execLoop
  simp only [hcur]
  rw [hrun]
  have hst := onExc_statusIn (eng.setStatus Status.failed) name sd rv []
    (PyExc.parallelExec [(nm, PyExc.user args)])
  cases hoe : onExc (eng.setStatus Status.failed) name sd rv []
      (PyExc.parallelExec [(nm, PyExc.user args)]) with
  | cont e' rv' or' ev =>
    rw [hoe] at hst
    simp only [IterOut.statusIn, Engine.status_setStatus] at hst
    have he' : e'.status = Status.failed := by
      rcases hst with h | h
      · exact h
      · exact h
    have hfin : (finishIter e').status = Status.failed := by
      unfold finishIter
      split
      · rename_i hcond
        exact absurd he' hcond.2
      · exact he'
    exact execLoop_sticky fuel or' (finishIter e') rv' (tr ++ [ev]) hfin
  | raised e' ev exc =>
    rw [hoe] at hst
    simp only [IterOut.statusIn, Engine.status_setStatus] at hst
    rcases hst with h | h
    · exact h
    · exact h
  | noFuel => exact absurd hoe (onExc_ne_noFuel _ _ _ _ _ _)

/-- Claim C3 witness: tasks `x` (succeeds) and `y` (fails) with
`stop_on_failure` raise the aggregated error and fail the engine. -/
theorem c3_witness :
    ∃ nm args,
      executeParallel c3tasks c3eng.last_result ["x", "y"] c3sd.stop_on_failure =
        ParOut.raised true (PyExc.parallelExec [(nm, PyExc.user args)]) ∧
      (∃ g, lookupTask c3tasks nm = some g ∧
        g c3eng.last_result = StepOutcome.exn args) ∧
      (execLoop 4 [["x", "y"]] c3eng Option.none []).1.status = Status.failed := by
  refine c3_parallel_stop_on_failure 3 ["x", "y"] c3eng Option.none [] "P" c3sd c3tasks
    rfl rfl rfl rfl rfl ?_ ?_
  · intro nm g hg args hargs
    simp only [c3tasks, lookupTask] at hg
    split at hg
    · injection hg with hg2
      rw [← hg2] at hargs
      exact absurd hargs (by simp)
    · split at hg
      · injection hg with hg2
        rw [← hg2] at hargs
        injection hargs with h3
        rw [← h3]
        simp
      · exact absurd hg (by simp)
  · exact ⟨"y", by simp, (fun _ => StepOutcome.exn [Value.str "yfail"]), rfl,
      [Value.str "yfail"], rfl⟩

/-- Claim C1 (amended): when the nested engine of a sub-workflow step
raises (its failing step has no handler) and the parent step has no
`on_failure`, the nested context is NOT merged into the parent - the
closure body after the failed `await` is skipped - and the parent instead
records the wrapped failure payload under the sub-step name, turns
`FAILED` and raises a `StepExecutionError` wrapping the nested error. -/
theorem c1_sub_failure_no_merge (fuel : Nat) (orders : List (List String)) (eng : Engine)
    (rv : Option Value) (tr : List Event) (name : String) (sd : StepDef)
    (nested nested' : Engine) (ntr : List Event) (e : PyExc) (p : Value) (rest : List Value)
    (hcur : eng.current_step = some name)
    (hlk : lookupStep eng.steps name = some sd)
    (hpar : sd.parallel = false)
    (hfn : sd.func = SFunc.sub nested)
    (honf : sd.on_failure = Option.none)
    (hrun : execLoop fuel [] ((nested.setStatus Status.running).setLastResult eng.last_result)
      Option.none [] = (nested', ntr, ExecResult.raised e))
    (hargs : PyExc.args e = p :: rest) :
    execLoop (fuel + 1) orders eng rv tr =
      ((((eng.updateSub name nested').setContext (dictSet eng.context name p)).setStatus
        Status.failed), tr ++ [Event.failed name], ExecResult.raised (PyExc.stepExec e)) ∧
    (execLoop (fuel + 1) orders eng rv tr).1.context = dictSet eng.context name p ∧
    (execLoop (fuel + 1) orders eng rv tr).1.status = Status.failed := by
  have hmain : execLoop (fuel + 1) orders eng rv tr =
      ((((eng.updateSub name nested').setContext (dictSet eng.context name p)).setStatus
        Status.failed), tr ++ [Event.failed name], ExecResult.raised (PyExc.stepExec e)) := by
    conv_lhs => unfold execLoop
    unfold runStep onExc
    simp [hcur, hlk, hpar, hfn, honf, hrun, hargs]
  refine ⟨hmain, ?_, ?_⟩
  · rw [hmain]
    simp
  · rw [hmain]
    simp

/-- Claim C1 counterexample: a concrete nested engine whose run leaves
entry `A` in its own context, while the parent context after the wrapping
step contains only the `S` entry with the wrapped message - the nested
entries are not merged, refuting the claimed merge (status and raise parts
do hold). -/
theorem c1_counterexample :
    (Engine.execute 6 [] c1parent Value.vnone).1.context =
      [("S", Value.str "Step generated an exception: boom")] ∧
    (Engine.execute 6 [] c1parent Value.vnone).1.context.any (fun q => q.1 == "A") = false ∧
    (Engine.execute 5 [] c1nested Value.vnone).1.context = [("A", Value.str "boom")] ∧
    (Engine.execute 6 [] c1parent Value.vnone).1.status = Status.failed ∧
    (Engine.execute 6 [] c1parent Value.vnone).2.2 =
      ExecResult.raised (PyExc.stepExec (PyExc.stepExec (PyExc.user [Value.str "boom"]))) :=
  ⟨rfl, rfl, rfl, rfl, rfl⟩

/-- Claim C1 witness: the amended statement at the concrete parent and
nested engines. -/
theorem c1_witness :
    execLoop 6 [] c1parent Option.none [] =
      ((((c1parent.updateSub "S" c1nestedAfter).setContext
        (dictSet c1parent.context "S" (Value.str "Step generated an exception: boom"))).setStatus
        Status.failed), [] ++ [Event.failed "S"],
        ExecResult.raised (PyExc.stepExec (PyExc.stepExec (PyExc.user [Value.str "boom"])))) ∧
    (execLoop 6 [] c1parent Option.none []).1.context =
      dictSet c1parent.context "S" (Value.str "Step generated an exception: boom") ∧
    (execLoop 6 [] c1parent Option.none []).1.status = Status.failed :=
  c1_sub_failure_no_merge 5 [] c1parent Option.none [] "S" c1sd c1nested c1nestedAfter
    [Event.failed "A"] (PyExc.stepExec (PyExc.user [Value.str "boom"]))
    (Value.str "Step generated an exception: boom") []
    rfl rfl rfl rfl rfl rfl rfl

/-- Claim C4 failing input: a parallel step with `stop_on_failure=false`
whose `branch` is non-empty and which runs first. The coordinator itself
aggregates both task outcomes without raising (last conjunct), but the
stale-variable branch check raises `NameError`, so a `StepExecutionError`
crosses the step boundary, the status turns `FAILED`, and the result
mapping in the context is overwritten by the failure payload - contrary to
the claim. -/
theorem c4_failing_input_eval :
    (Engine.execute 5 [] c4eng Value.vnone).2.2 =
      ExecResult.raised (PyExc.stepExec (PyExc.nameErr "name result is not defined")) ∧
    (Engine.execute 5 [] c4eng Value.vnone).1.status = Status.failed ∧
    (Engine.execute 5 [] c4eng Value.vnone).1.context =
      [("P", Value.str "name result is not defined")] ∧
    executeParallel [("x", fun _ => StepOutcome.ok (Value.int 1)),
        ("y", fun _ => StepOutcome.exn [Value.str "yfail"])] Value.vnone ["x", "y"] false =
      ParOut.ok [("x", Value.int 1), ("y", Value.str "yfail")] :=
  ⟨rfl, rfl, rfl, rfl⟩

/-- Claim C7 failing input: after a parallel step the branch mapping is
NOT ignored - the check reads the stale `result` of the previous
non-parallel step (`A` produced `k`), so the cursor moves to the branch
target `C` instead of `next_step` `B`. -/
theorem c7_stale_branch_redirect :
    (Engine.execute 6 [] c7eng Value.vnone).2.1 =
      [Event.ok "A", Event.ok "P", Event.ok "C"] ∧
    (Engine.execute 6 [] c7eng Value.vnone).1.context =
      [("A", Value.str "k"), ("P", Value.dict [("t", Value.int 1)]), ("C", Value.str "atC")] ∧
    (Engine.execute 6 [] c7eng Value.vnone).1.context.any (fun q => q.1 == "B") = false :=
  ⟨rfl, rfl, rfl⟩

end StepFn
